import Mathlib

/-!
Shallow embedding of the musictool-vnext data-access core
(`src/musictool/models/database.py`, `repositories.py`, `config.py`).

Conventions of the embedding:
* Each SQLAlchemy mapped class becomes a Lean structure; `DateTime` columns
  are modelled as an abstract `Nat` clock value (`datetime.utcnow()` is a
  parameter `now` of the operations that read the clock), nullable columns
  as `Option`.
* The database/session state is a `DB` record of one row list per table,
  in insertion (scan) order, plus the autoincrement counters.  Repository
  methods are functions over this state; `session.flush()` making pending
  writes visible to in-scope reads is what the explicit state passing
  already provides.
* Python `Optional` arguments are `Option`; the source's truthiness tests
  (`if limit:`, `if artist:`, `if year:`) are translated exactly, i.e. the
  guard also fails on `0` and on the empty string.
* SQL `ILIKE '%pat%'` is modelled as ASCII case-insensitive substring
  containment (`strContainsSub`); wildcard metacharacters inside the
  needle are outside the modelled fragment and treated literally.
  A `NULL` column never matches an `ILIKE` pattern.
-/

/-- A Python value that can appear as a `**kwargs` argument of
`BaseRepository.update`: strings, integers, datetimes, `None`. -/
inductive Value where
  | vStr (s : String) : Value
  | vInt (i : Int) : Value
  | vTime (n : Nat) : Value
  | vNone : Value
deriving DecidableEq

/-- Embedding of `database.py` `Track`: columns in source order. -/
structure Track where
  id : Int
  artist : String
  title : String
  album : Option String
  label : Option String
  year : Option Int
  duration_ms : Option Int
  created_at : Nat
  updated_at : Nat
deriving DecidableEq

/-- Embedding of `database.py` `DigitalTrack`. -/
structure DigitalTrack where
  id : Int
  track_id : Int
  file_path : String
  format : String
  bitrate : Option Int
  source_file : String
  created_at : Nat
deriving DecidableEq

/-- Embedding of `database.py` `Release`. -/
structure Release where
  id : Int
  discogs_id : Option Int
  title : String
  artist : String
  label : Option String
  year : Option Int
  format_type : String
  created_at : Nat
deriving DecidableEq

/-- Embedding of `database.py` `PhysicalTrack`. -/
structure PhysicalTrack where
  id : Int
  track_id : Int
  release_id : Int
  position : Option String
  created_at : Nat
deriving DecidableEq

/-- Embedding of `database.py` `ImportBatch`. -/
structure ImportBatch where
  id : Int
  source_type : String
  source_file : Option String
  records_imported : Int
  status : String
  error_message : Option String
  created_at : Nat
deriving DecidableEq

/-- The visible store/session state: one row list per table (in scan
order) and the autoincrement counter for identifier assignment.  Only the
tracks counter is exercised by the claims; identifier assignment is
modelled abstractly as a fresh-id counter. -/
structure DB where
  tracks : List Track
  digital_tracks : List DigitalTrack
  physical_tracks : List PhysicalTrack
  releases : List Release
  import_batches : List ImportBatch
  next_track_id : Int
deriving DecidableEq

/-- Store-maintained facts used by the proofs: primary keys are unique
and below the autoincrement counter. -/
def dbWF (db : DB) : Prop :=
  (∀ t ∈ db.tracks, t.id < db.next_track_id) ∧
  (db.tracks.map Track.id).Nodup

/-- ASCII case folding of one character (models SQL `ILIKE`
case-insensitivity for the ASCII fixtures of the spec). -/
def foldChar (c : Char) : Char :=
  if 65 ≤ c.toNat && c.toNat ≤ 90 then Char.ofNat (c.toNat + 32) else c

/-- Case-insensitive substring containment: `s ILIKE '%pat%'` for a
non-`NULL` column `s`. -/
def strContainsSub (s pat : String) : Bool :=
  let sl := s.toList.map foldChar
  let pl := pat.toList.map foldChar
  (List.range (sl.length + 1)).any (fun i => ((sl.drop i).take pl.length) == pl)

/-- Model of `ILIKE` on a nullable column: SQL `NULL LIKE pat` is `NULL`, so the
row is never matched. -/
def ilikeOpt (o : Option String) (pat : String) : Bool :=
  match o with
  | none => false
  | some s => strContainsSub s pat

/-- Embedding of `BaseRepository.get_by_id`: `query(model).filter_by(id=id).first()`. -/
def repoGetById {ρ : Type} (getId : ρ → Int) (rows : List ρ) (id : Int) : Option ρ :=
  rows.find? (fun r => getId r == id)

/-- Embedding of `BaseRepository.get_all`: `query(model).offset(offset)`, then
`query.limit(limit)` guarded by Python truthiness (`if limit:`), so a
`None` or `0` limit leaves the query unlimited. -/
def repoGetAll {ρ : Type} (rows : List ρ) (limit : Option Nat) (offset : Nat) : List ρ :=
  let q := rows.drop offset
  match limit with
  | some n => if n != 0 then q.take n else q
  | none => q

/-- Embedding of `BaseRepository.update`'s flush result for the found
row: `setattr` each `kwargs` entry whose name passes `hasattr` (others
are silently skipped), then `flush`.  At flush time SQLAlchemy compares
every set column attribute against its flushed value and emits an
`UPDATE` exactly when some column carries a net change (the check of
`_collect_update_commands`; a same-value assignment produces no
`UPDATE` at all) — in the model, exactly when the folded row differs
from the original.  On that `UPDATE` the `onupdate` hook (`touch`, the
identity for entities without one) refreshes `updated_at` unless the
`updated_at` column itself carries a net change and therefore already
stands in the `SET` clause; `updSame` tests that its folded value is
unchanged (constantly `true` for entities without an `onupdate`
column). -/
def repoUpdateRow {ρ : Type} [DecidableEq ρ] (hasAttr : String → Bool)
    (setAttr : ρ → String → Value → ρ) (touch : ρ → ρ) (updSame : ρ → ρ → Bool)
    (r : ρ) (kwargs : List (String × Value)) : ρ :=
  let r1 := kwargs.foldl (fun acc kv => if hasAttr kv.1 then setAttr acc kv.1 kv.2 else acc) r
  if r1 != r && updSame r1 r then touch r1 else r1

/-- Embedding of `BaseRepository.update`: look up the row, merge and
flush via `repoUpdateRow`, return the (possibly unchanged) object. -/
def repoUpdate {ρ : Type} [DecidableEq ρ] (getId : ρ → Int) (hasAttr : String → Bool)
    (setAttr : ρ → String → Value → ρ) (touch : ρ → ρ) (updSame : ρ → ρ → Bool)
    (rows : List ρ) (id : Int) (kwargs : List (String × Value)) : Option ρ × List ρ :=
  match repoGetById getId rows id with
  | none => (none, rows)
  | some r =>
    let r2 := repoUpdateRow hasAttr setAttr touch updSame r kwargs
    (some r2, rows.map (fun x => if getId x == id then r2 else x))

/-- The mapped column attributes of `Track`. -/
def trackColumns : List String :=
  ["id", "artist", "title", "album", "label", "year", "duration_ms",
   "created_at", "updated_at"]

/-- Non-column attributes of the `Track` mapped class that `hasattr`
also reports (relationships and properties).  Assignments to them are
outside the modelled fragment; the claims only exercise column names and
unknown names. -/
def trackExtraAttrs : List String :=
  ["digital_tracks", "physical_tracks", "has_digital_format", "has_physical_format"]

/-- Model of `hasattr(track, k)` on the modelled attribute surface. -/
def trackHasAttr (k : String) : Bool :=
  trackColumns.contains k || trackExtraAttrs.contains k

/-- Read one column of a `Track` by name (used to state field-merge
properties uniformly). -/
def trackGetAttr (t : Track) (k : String) : Value :=
  if k == "id" then .vInt t.id
  else if k == "artist" then .vStr t.artist
  else if k == "title" then .vStr t.title
  else if k == "album" then (match t.album with | some s => .vStr s | none => .vNone)
  else if k == "label" then (match t.label with | some s => .vStr s | none => .vNone)
  else if k == "year" then (match t.year with | some i => .vInt i | none => .vNone)
  else if k == "duration_ms" then (match t.duration_ms with | some i => .vInt i | none => .vNone)
  else if k == "created_at" then .vTime t.created_at
  else if k == "updated_at" then .vTime t.updated_at
  else .vNone

/-- Model of `setattr(track, k, v)` for the modelled attribute surface.
Ill-typed assignments and assignments to relationship/property
attributes are outside the modelled fragment and leave the row
unchanged; the claims restrict `kwargs` to well-typed column values and
unknown names. -/
def trackSetAttr (t : Track) (k : String) (v : Value) : Track :=
  if k == "id" then (match v with | .vInt i => { t with id := i } | _ => t)
  else if k == "artist" then (match v with | .vStr s => { t with artist := s } | _ => t)
  else if k == "title" then (match v with | .vStr s => { t with title := s } | _ => t)
  else if k == "album" then
    (match v with | .vStr s => { t with album := some s } | .vNone => { t with album := none } | _ => t)
  else if k == "label" then
    (match v with | .vStr s => { t with label := some s } | .vNone => { t with label := none } | _ => t)
  else if k == "year" then
    (match v with | .vInt i => { t with year := some i } | .vNone => { t with year := none } | _ => t)
  else if k == "duration_ms" then
    (match v with | .vInt i => { t with duration_ms := some i } | .vNone => { t with duration_ms := none } | _ => t)
  else if k == "created_at" then (match v with | .vTime n => { t with created_at := n } | _ => t)
  else if k == "updated_at" then (match v with | .vTime n => { t with updated_at := n } | _ => t)
  else t

/-- The `(column name, value shape)` pairs realisable by `Track`'s
column types. -/
def trackWellTyped (k : String) (v : Value) : Bool :=
  match k, v with
  | "id", .vInt _ => true
  | "artist", .vStr _ => true
  | "title", .vStr _ => true
  | "album", .vStr _ => true
  | "album", .vNone => true
  | "label", .vStr _ => true
  | "label", .vNone => true
  | "year", .vInt _ => true
  | "year", .vNone => true
  | "duration_ms", .vInt _ => true
  | "duration_ms", .vNone => true
  | "created_at", .vTime _ => true
  | "updated_at", .vTime _ => true
  | _, _ => false

/-- Embedding of `TrackRepository.get_by_id`. -/
def trackGetById (db : DB) (id : Int) : Option Track :=
  repoGetById Track.id db.tracks id

/-- Embedding of `TrackRepository.get_all`. -/
def trackGetAll (db : DB) (limit : Option Nat) (offset : Nat) : List Track :=
  repoGetAll db.tracks limit offset

/-- Embedding of `BaseRepository.create` for `Track`: construct the object (the
`DateTime` columns default to `datetime.utcnow()`, i.e. `now`), add it
to the session and `flush`, which assigns the next identifier. -/
def trackCreate (db : DB) (artist title : String) (album label : Option String)
    (year duration_ms : Option Int) (now : Nat) : Track × DB :=
  let t : Track := ⟨db.next_track_id, artist, title, album, label, year, duration_ms, now, now⟩
  (t, { db with tracks := db.tracks ++ [t], next_track_id := db.next_track_id + 1 })

/-- Embedding of `BaseRepository.update` for `Track`; `Track.updated_at` has
`onupdate=datetime.utcnow`. -/
def trackUpdate (db : DB) (now : Nat) (id : Int) (kwargs : List (String × Value)) :
    Option Track × DB :=
  let p := repoUpdate Track.id trackHasAttr trackSetAttr
    (fun t => { t with updated_at := now })
    (fun r1 r0 => r1.updated_at == r0.updated_at) db.tracks id kwargs
  (p.1, { db with tracks := p.2 })

/-- Embedding of `BaseRepository.delete` for `Track`: `session.delete(obj)` with the
`cascade="all, delete-orphan"` relationships removing every
`DigitalTrack` and `PhysicalTrack` row referencing the track, then
`flush`; returns whether a row was deleted. -/
def trackDelete (db : DB) (id : Int) : Bool × DB :=
  match repoGetById Track.id db.tracks id with
  | none => (false, db)
  | some t =>
    (true, { db with
      tracks := db.tracks.filter (fun x => x.id != t.id),
      digital_tracks := db.digital_tracks.filter (fun d => d.track_id != t.id),
      physical_tracks := db.physical_tracks.filter (fun p => p.track_id != t.id) })

/-- Embedding of `BaseRepository.delete` for `Release`: cascade removes the
`PhysicalTrack` rows of the release; the referenced tracks are not part
of any cascading relationship. -/
def releaseDelete (db : DB) (id : Int) : Bool × DB :=
  match repoGetById Release.id db.releases id with
  | none => (false, db)
  | some r =>
    (true, { db with
      releases := db.releases.filter (fun x => x.id != r.id),
      physical_tracks := db.physical_tracks.filter (fun p => p.release_id != r.id) })

/-- Embedding of `DatabaseConfig.session_scope` (and its `db_session_scope` wrapper):
run the body on a fresh session; on normal return `commit` publishes the
session state, on any raised failure `rollback` discards it and the
failure is re-raised.  The `finally: session.close()` releasing the
connection has no observable counterpart in this state model. -/
def session_scope {ε α : Type} (db : DB) (body : DB → Except ε (α × DB)) :
    Except ε α × DB :=
  match body db with
  | .ok (a, db2) => (.ok a, db2)
  | .error e => (.error e, db)

/-- Embedding of `TrackRepository.search_by_album`:
`query(Track).filter(Track.album.ilike(f"%{album}%"))` — the filter is
applied unconditionally, and a `NULL` album never matches — then the
truthiness-guarded limit. -/
def search_by_album (db : DB) (album : String) (limit : Option Nat) : List Track :=
  let q := db.tracks.filter (fun t => ilikeOpt t.album album)
  match limit with
  | some n => if n != 0 then q.take n else q
  | none => q

/-- Embedding of `TrackRepository.search_tracks`: each criterion is applied behind a
Python truthiness guard (`if artist:` etc.), so `None`, the empty
string and the integer `0` all skip the corresponding filter. -/
def search_tracks (db : DB) (artist title album : Option String) (year : Option Int)
    (limit : Option Nat) : List Track :=
  let q := db.tracks
  let q := match artist with
    | some a => if a == "" then q else q.filter (fun t => strContainsSub t.artist a)
    | none => q
  let q := match title with
    | some s => if s == "" then q else q.filter (fun t => strContainsSub t.title s)
    | none => q
  let q := match album with
    | some s => if s == "" then q else q.filter (fun t => ilikeOpt t.album s)
    | none => q
  let q := match year with
    | some y => if y == 0 then q else q.filter (fun t => t.year == some y)
    | none => q
  match limit with
  | some n => if n != 0 then q.take n else q
  | none => q

/-- SQL inner-join row stream of `query(Track).join(child)`: the outer
scan over `tracks` emits one row per matching child key, in child scan
order. -/
def joinChildren (childKeys : List Int) : List Track → List Track
  | [] => []
  | t :: ts => (childKeys.filter (fun k => k == t.id)).map (fun _ => t) ++ joinChildren childKeys ts

/-- The legacy SQLAlchemy `Query`, when returning full ORM entities,
uniquifies the result by primary-key identity, keeping the first
occurrence of each entity (see the SQLAlchemy FAQ on `Query` returning
fewer objects than `count()`). -/
def dedupById (seen : List Int) : List Track → List Track
  | [] => []
  | t :: ts =>
    if seen.contains t.id then dedupById seen ts
    else t :: dedupById (t.id :: seen) ts

/-- Embedding of `TrackRepository.get_with_digital_formats`:
`query(Track).join(DigitalTrack)` with the truthiness-guarded limit
applied to the joined row stream, then the legacy-`Query` entity
uniquification of the fetched rows. -/
def get_with_digital_formats (db : DB) (limit : Option Nat) : List Track :=
  let rows := joinChildren (db.digital_tracks.map DigitalTrack.track_id) db.tracks
  let rows := match limit with
    | some n => if n != 0 then rows.take n else rows
    | none => rows
  dedupById [] rows

/-- Embedding of `TrackRepository.get_with_physical_formats`:
`query(Track).join(PhysicalTrack)`, same shape as the digital variant. -/
def get_with_physical_formats (db : DB) (limit : Option Nat) : List Track :=
  let rows := joinChildren (db.physical_tracks.map PhysicalTrack.track_id) db.tracks
  let rows := match limit with
    | some n => if n != 0 then rows.take n else rows
    | none => rows
  dedupById [] rows

/-- One step of selecting a row maximal in `created_at`. -/
def maxStep (acc : Option ImportBatch) (b : ImportBatch) : Option ImportBatch :=
  match acc with
  | none => some b
  | some m => if b.created_at > m.created_at then some b else some m

/-- Model of `ORDER BY created_at DESC ... first()`: an element of the row list
maximal in `created_at`.  The backend's tie order is unspecified; the
model keeps the first-encountered maximal row. -/
def maxByCreatedAt (rows : List ImportBatch) : Option ImportBatch :=
  rows.foldl maxStep none

/-- Embedding of `ImportBatchRepository.get_latest_successful_import`:
`filter_by(source_type=source_type, status="success")
 .order_by(ImportBatch.created_at.desc()).first()`. -/
def get_latest_successful_import (db : DB) (source_type : String) : Option ImportBatch :=
  maxByCreatedAt
    (db.import_batches.filter (fun b => b.source_type == source_type && b.status == "success"))

/-- Attribute surface of the remaining mapped classes, for the generic
`update`/`delete` of `BaseRepository` (§C5).  Columns first, then the
relationship attributes `hasattr` also reports. -/
def digitalTrackColumns : List String :=
  ["id", "track_id", "file_path", "format", "bitrate", "source_file", "created_at"]

def digitalTrackHasAttr (k : String) : Bool :=
  digitalTrackColumns.contains k || k == "track"

/-- Model of `setattr` for `DigitalTrack` columns (ill-typed assignments are
outside the modelled fragment). -/
def digitalTrackSetAttr (d : DigitalTrack) (k : String) (v : Value) : DigitalTrack :=
  if k == "id" then (match v with | .vInt i => { d with id := i } | _ => d)
  else if k == "track_id" then (match v with | .vInt i => { d with track_id := i } | _ => d)
  else if k == "file_path" then (match v with | .vStr s => { d with file_path := s } | _ => d)
  else if k == "format" then (match v with | .vStr s => { d with format := s } | _ => d)
  else if k == "bitrate" then
    (match v with | .vInt i => { d with bitrate := some i } | .vNone => { d with bitrate := none } | _ => d)
  else if k == "source_file" then (match v with | .vStr s => { d with source_file := s } | _ => d)
  else if k == "created_at" then (match v with | .vTime n => { d with created_at := n } | _ => d)
  else d

def physicalTrackColumns : List String :=
  ["id", "track_id", "release_id", "position", "created_at"]

def physicalTrackHasAttr (k : String) : Bool :=
  physicalTrackColumns.contains k || k == "track" || k == "release"

def physicalTrackSetAttr (p : PhysicalTrack) (k : String) (v : Value) : PhysicalTrack :=
  if k == "id" then (match v with | .vInt i => { p with id := i } | _ => p)
  else if k == "track_id" then (match v with | .vInt i => { p with track_id := i } | _ => p)
  else if k == "release_id" then (match v with | .vInt i => { p with release_id := i } | _ => p)
  else if k == "position" then
    (match v with | .vStr s => { p with position := some s } | .vNone => { p with position := none } | _ => p)
  else if k == "created_at" then (match v with | .vTime n => { p with created_at := n } | _ => p)
  else p

def releaseColumns : List String :=
  ["id", "discogs_id", "title", "artist", "label", "year", "format_type", "created_at"]

def releaseHasAttr (k : String) : Bool :=
  releaseColumns.contains k || k == "physical_tracks"

def releaseSetAttr (r : Release) (k : String) (v : Value) : Release :=
  if k == "id" then (match v with | .vInt i => { r with id := i } | _ => r)
  else if k == "discogs_id" then
    (match v with | .vInt i => { r with discogs_id := some i } | .vNone => { r with discogs_id := none } | _ => r)
  else if k == "title" then (match v with | .vStr s => { r with title := s } | _ => r)
  else if k == "artist" then (match v with | .vStr s => { r with artist := s } | _ => r)
  else if k == "label" then
    (match v with | .vStr s => { r with label := some s } | .vNone => { r with label := none } | _ => r)
  else if k == "year" then
    (match v with | .vInt i => { r with year := some i } | .vNone => { r with year := none } | _ => r)
  else if k == "format_type" then (match v with | .vStr s => { r with format_type := s } | _ => r)
  else if k == "created_at" then (match v with | .vTime n => { r with created_at := n } | _ => r)
  else r

def importBatchColumns : List String :=
  ["id", "source_type", "source_file", "records_imported", "status",
   "error_message", "created_at"]

def importBatchHasAttr (k : String) : Bool :=
  importBatchColumns.contains k

def importBatchSetAttr (b : ImportBatch) (k : String) (v : Value) : ImportBatch :=
  if k == "id" then (match v with | .vInt i => { b with id := i } | _ => b)
  else if k == "source_type" then (match v with | .vStr s => { b with source_type := s } | _ => b)
  else if k == "source_file" then
    (match v with | .vStr s => { b with source_file := some s } | .vNone => { b with source_file := none } | _ => b)
  else if k == "records_imported" then (match v with | .vInt i => { b with records_imported := i } | _ => b)
  else if k == "status" then (match v with | .vStr s => { b with status := s } | _ => b)
  else if k == "error_message" then
    (match v with | .vStr s => { b with error_message := some s } | .vNone => { b with error_message := none } | _ => b)
  else if k == "created_at" then (match v with | .vTime n => { b with created_at := n } | _ => b)
  else b

/-- Instantiations of `get_by_id` / `update` / `delete` for the remaining
repositories.  None of these entities has an `onupdate` column, so the
flush hook is the identity. -/
def digitalTrackGetById (db : DB) (id : Int) : Option DigitalTrack :=
  repoGetById DigitalTrack.id db.digital_tracks id

def digitalTrackUpdate (db : DB) (id : Int) (kwargs : List (String × Value)) :
    Option DigitalTrack × DB :=
  let p := repoUpdate DigitalTrack.id digitalTrackHasAttr
    digitalTrackSetAttr (fun d => d) (fun _ _ => true) db.digital_tracks id kwargs
  (p.1, { db with digital_tracks := p.2 })

def digitalTrackDelete (db : DB) (id : Int) : Bool × DB :=
  match repoGetById DigitalTrack.id db.digital_tracks id with
  | none => (false, db)
  | some d => (true, { db with digital_tracks := db.digital_tracks.filter (fun x => x.id != d.id) })

def physicalTrackGetById (db : DB) (id : Int) : Option PhysicalTrack :=
  repoGetById PhysicalTrack.id db.physical_tracks id

def physicalTrackUpdate (db : DB) (id : Int) (kwargs : List (String × Value)) :
    Option PhysicalTrack × DB :=
  let p := repoUpdate PhysicalTrack.id physicalTrackHasAttr
    physicalTrackSetAttr (fun x => x) (fun _ _ => true) db.physical_tracks id kwargs
  (p.1, { db with physical_tracks := p.2 })

def physicalTrackDelete (db : DB) (id : Int) : Bool × DB :=
  match repoGetById PhysicalTrack.id db.physical_tracks id with
  | none => (false, db)
  | some d => (true, { db with physical_tracks := db.physical_tracks.filter (fun x => x.id != d.id) })

def releaseGetById (db : DB) (id : Int) : Option Release :=
  repoGetById Release.id db.releases id

def releaseUpdate (db : DB) (id : Int) (kwargs : List (String × Value)) :
    Option Release × DB :=
  let p := repoUpdate Release.id releaseHasAttr
    releaseSetAttr (fun r => r) (fun _ _ => true) db.releases id kwargs
  (p.1, { db with releases := p.2 })

def importBatchGetById (db : DB) (id : Int) : Option ImportBatch :=
  repoGetById ImportBatch.id db.import_batches id

def importBatchUpdate (db : DB) (id : Int) (kwargs : List (String × Value)) :
    Option ImportBatch × DB :=
  let p := repoUpdate ImportBatch.id importBatchHasAttr
    importBatchSetAttr (fun b => b) (fun _ _ => true) db.import_batches id kwargs
  (p.1, { db with import_batches := p.2 })

def importBatchDelete (db : DB) (id : Int) : Bool × DB :=
  match repoGetById ImportBatch.id db.import_batches id with
  | none => (false, db)
  | some b => (true, { db with import_batches := db.import_batches.filter (fun x => x.id != b.id) })

/-- Spec-side conjunctive criterion of §4.3 `search_tracks`, amended by
the truthiness behaviour: an absent, empty-string or zero criterion
imposes no constraint; a non-empty text criterion is a case-insensitive
substring match and a non-zero year an exact match. -/
def track_matches_amended (t : Track) (artist title album : Option String)
    (year : Option Int) : Bool :=
  (match artist with | some a => a == "" || strContainsSub t.artist a | none => true) &&
  (match title with | some s => s == "" || strContainsSub t.title s | none => true) &&
  (match album with | some s => s == "" || ilikeOpt t.album s | none => true) &&
  (match year with | some y => y == 0 || (t.year == some y) | none => true)

/-- The modelled fragment of `update` keyword arguments: column names
or names that fail `hasattr` (assignments to relationship/property
attributes are outside the model, see `trackSetAttr`). -/
def trackModelledKwargs (kwargs : List (String × Value)) : Bool :=
  kwargs.all (fun kv => trackColumns.contains kv.1 || !trackHasAttr kv.1)

/-! Concrete fixtures.  `song1`–`song4` and `fixtureDB` are the 4-track
fixture of §8 of the spec; `batchA`–`batchC` and `batchDB` are its batch
fixture (inserted in that order, with strictly increasing creation
clock). -/

def song1 : Track := ⟨1, "Artist A", "Song1", some "Album A", none, some 2020, none, 0, 0⟩
def song2 : Track := ⟨2, "Artist B", "Song2", some "Album B", none, some 2021, none, 0, 0⟩
def song3 : Track := ⟨3, "Artist A", "Song3", some "Album A", none, some 2020, none, 0, 0⟩
def song4 : Track := ⟨4, "Artist C", "Song4", none, none, some 2022, none, 0, 0⟩

def fixtureDB : DB := ⟨[song1, song2, song3, song4], [], [], [], [], 5⟩

def batchA : ImportBatch := ⟨1, "traktor_nml", none, 100, "success", none, 1⟩
def batchB : ImportBatch := ⟨2, "traktor_nml", none, 0, "error", some "boom", 2⟩
def batchC : ImportBatch := ⟨3, "traktor_nml", none, 150, "success", none, 3⟩

def batchDB : DB := ⟨[], [], [], [], [batchA, batchB, batchC], 1⟩

/-- A one-track store used by the pagination counterexample. -/
def tC6 : Track := ⟨1, "A", "T", none, none, none, none, 0, 0⟩

def dbC6 : DB := ⟨[tC6], [], [], [], [], 2⟩

/-- A track with one digital child, one physical child on a release. -/
def tC2 : Track := ⟨1, "A", "T", none, none, none, none, 0, 0⟩

def dC2 : DigitalTrack := ⟨1, 1, "/a.mp3", "mp3", some 320, "lib.nml", 0⟩

def rC2 : Release := ⟨1, some 77, "R", "A", none, some 2020, "vinyl", 0⟩

def pC2 : PhysicalTrack := ⟨1, 1, 1, some "A1", 0⟩

def dbC2 : DB := ⟨[tC2], [dC2], [pC2], [rC2], [], 2⟩

/-- A track with two digital children (the join-deduplication case). -/
def tC9 : Track := ⟨1, "A", "T", none, none, none, none, 0, 0⟩

def dC9a : DigitalTrack := ⟨1, 1, "/a.mp3", "mp3", none, "lib.nml", 0⟩

def dC9b : DigitalTrack := ⟨2, 1, "/a.flac", "flac", none, "lib.nml", 0⟩

def dbC9 : DB := ⟨[tC9], [dC9a, dC9b], [], [], [], 2⟩

/-- A track whose timestamps are both `0`, used by the update
counterexamples. -/
def tC4 : Track := ⟨1, "A", "T", none, none, none, none, 0, 0⟩

def dbC4 : DB := ⟨[tC4], [], [], [], [], 2⟩

def tC8 : Track := ⟨1, "A", "T", none, none, none, none, 0, 0⟩

def dbC8 : DB := ⟨[tC8], [], [], [], [], 2⟩

def tC5 : Track := ⟨1, "A", "T", none, none, none, none, 0, 0⟩

def dbC5 : DB := ⟨[tC5], [], [], [], [], 2⟩

/-! Helper lemmas about the generic repository operations. -/

theorem repoGetById_eq_none {ρ : Type} (getId : ρ → Int) (rows : List ρ) (id : Int)
    (h : ∀ r ∈ rows, getId r ≠ id) : repoGetById getId rows id = none := by
  rw [repoGetById, List.find?_eq_none]
  intro r hr
  simpa using h r hr

theorem repoGetById_isSome_iff {ρ : Type} (getId : ρ → Int) (rows : List ρ) (id : Int) :
    (repoGetById getId rows id).isSome ↔ ∃ r ∈ rows, getId r = id := by
  simp [repoGetById, List.find?_isSome]

theorem repoGetById_some {ρ : Type} {getId : ρ → Int} {rows : List ρ} {id : Int} {r : ρ}
    (h : repoGetById getId rows id = some r) : r ∈ rows ∧ getId r = id := by
  refine ⟨List.mem_of_find?_eq_some h, ?_⟩
  simpa using List.find?_some h

theorem repoUpdate_missing {ρ : Type} [DecidableEq ρ] (getId : ρ → Int)
    (hasAttr : String → Bool)
    (setAttr : ρ → String → Value → ρ) (touch : ρ → ρ) (updSame : ρ → ρ → Bool)
    (rows : List ρ) (id : Int)
    (kwargs : List (String × Value)) (h : repoGetById getId rows id = none) :
    repoUpdate getId hasAttr setAttr touch updSame rows id kwargs = (none, rows) := by
  simp [repoUpdate, h]

theorem trackDelete_fst (db : DB) (id : Int) :
    (trackDelete db id).1 = (repoGetById Track.id db.tracks id).isSome := by
  unfold trackDelete
  cases h : repoGetById Track.id db.tracks id <;> simp

theorem digitalTrackDelete_fst (db : DB) (id : Int) :
    (digitalTrackDelete db id).1 = (repoGetById DigitalTrack.id db.digital_tracks id).isSome := by
  unfold digitalTrackDelete
  cases h : repoGetById DigitalTrack.id db.digital_tracks id <;> simp

theorem physicalTrackDelete_fst (db : DB) (id : Int) :
    (physicalTrackDelete db id).1 = (repoGetById PhysicalTrack.id db.physical_tracks id).isSome := by
  unfold physicalTrackDelete
  cases h : repoGetById PhysicalTrack.id db.physical_tracks id <;> simp

theorem releaseDelete_fst (db : DB) (id : Int) :
    (releaseDelete db id).1 = (repoGetById Release.id db.releases id).isSome := by
  unfold releaseDelete
  cases h : repoGetById Release.id db.releases id <;> simp

theorem importBatchDelete_fst (db : DB) (id : Int) :
    (importBatchDelete db id).1 = (repoGetById ImportBatch.id db.import_batches id).isSome := by
  unfold importBatchDelete
  cases h : repoGetById ImportBatch.id db.import_batches id <;> simp

/-- C5: For every entity type and every identifier, `get_by_id` on a
missing identifier returns absent (not a raised failure), `update` on a
missing identifier returns absent and changes nothing, and `delete(id)`
returns `true` iff a row with that identifier existed (and the row is
then removed), returning `false` — never raising — when no such row
exists. -/
theorem notfound_absent_semantics (db : DB) (id : Int) (now : Nat)
    (kwargs : List (String × Value)) :
    ((∀ r ∈ db.tracks, r.id ≠ id) → trackGetById db id = none) ∧
    ((∀ r ∈ db.digital_tracks, r.id ≠ id) → digitalTrackGetById db id = none) ∧
    ((∀ r ∈ db.physical_tracks, r.id ≠ id) → physicalTrackGetById db id = none) ∧
    ((∀ r ∈ db.releases, r.id ≠ id) → releaseGetById db id = none) ∧
    ((∀ r ∈ db.import_batches, r.id ≠ id) → importBatchGetById db id = none) ∧
    (trackGetById db id = none → trackUpdate db now id kwargs = (none, db)) ∧
    (digitalTrackGetById db id = none → digitalTrackUpdate db id kwargs = (none, db)) ∧
    (physicalTrackGetById db id = none → physicalTrackUpdate db id kwargs = (none, db)) ∧
    (releaseGetById db id = none → releaseUpdate db id kwargs = (none, db)) ∧
    (importBatchGetById db id = none → importBatchUpdate db id kwargs = (none, db)) ∧
    ((trackDelete db id).1 = true ↔ ∃ r ∈ db.tracks, r.id = id) ∧
    ((trackDelete db id).1 = false → (trackDelete db id).2 = db) ∧
    ((trackDelete db id).1 = true → ∀ r ∈ (trackDelete db id).2.tracks, r.id ≠ id) ∧
    ((digitalTrackDelete db id).1 = true ↔ ∃ r ∈ db.digital_tracks, r.id = id) ∧
    ((digitalTrackDelete db id).1 = false → (digitalTrackDelete db id).2 = db) ∧
    ((digitalTrackDelete db id).1 = true →
      ∀ r ∈ (digitalTrackDelete db id).2.digital_tracks, r.id ≠ id) ∧
    ((physicalTrackDelete db id).1 = true ↔ ∃ r ∈ db.physical_tracks, r.id = id) ∧
    ((physicalTrackDelete db id).1 = false → (physicalTrackDelete db id).2 = db) ∧
    ((physicalTrackDelete db id).1 = true →
      ∀ r ∈ (physicalTrackDelete db id).2.physical_tracks, r.id ≠ id) ∧
    ((releaseDelete db id).1 = true ↔ ∃ r ∈ db.releases, r.id = id) ∧
    ((releaseDelete db id).1 = false → (releaseDelete db id).2 = db) ∧
    ((releaseDelete db id).1 = true → ∀ r ∈ (releaseDelete db id).2.releases, r.id ≠ id) ∧
    ((importBatchDelete db id).1 = true ↔ ∃ r ∈ db.import_batches, r.id = id) ∧
    ((importBatchDelete db id).1 = false → (importBatchDelete db id).2 = db) ∧
    ((importBatchDelete db id).1 = true →
      ∀ r ∈ (importBatchDelete db id).2.import_batches, r.id ≠ id) := by
  refine ⟨?_, ?_, ?_, ?_, ?_, ?_, ?_, ?_, ?_, ?_, ?_, ?_, ?_, ?_, ?_, ?_, ?_, ?_, ?_,
    ?_, ?_, ?_, ?_, ?_, ?_⟩
  · exact fun h => repoGetById_eq_none _ _ _ h
  · exact fun h => repoGetById_eq_none _ _ _ h
  · exact fun h => repoGetById_eq_none _ _ _ h
  · exact fun h => repoGetById_eq_none _ _ _ h
  · exact fun h => repoGetById_eq_none _ _ _ h
  · intro h
    simp [trackUpdate, repoUpdate_missing _ _ _ _ _ _ _ _ h]
  · intro h
    simp [digitalTrackUpdate, repoUpdate_missing _ _ _ _ _ _ _ _ h]
  · intro h
    simp [physicalTrackUpdate, repoUpdate_missing _ _ _ _ _ _ _ _ h]
  · intro h
    simp [releaseUpdate, repoUpdate_missing _ _ _ _ _ _ _ _ h]
  · intro h
    simp [importBatchUpdate, repoUpdate_missing _ _ _ _ _ _ _ _ h]
  · rw [trackDelete_fst, repoGetById_isSome_iff]
  · intro h
    unfold trackDelete at h ⊢
    cases hf : repoGetById Track.id db.tracks id <;> simp [hf] at h ⊢
  · intro h r hr
    unfold trackDelete at h hr
    cases hf : repoGetById Track.id db.tracks id <;> simp [hf] at h hr
    obtain ⟨-, hid⟩ := repoGetById_some hf
    omega
  · rw [digitalTrackDelete_fst, repoGetById_isSome_iff]
  · intro h
    unfold digitalTrackDelete at h ⊢
    cases hf : repoGetById DigitalTrack.id db.digital_tracks id <;> simp [hf] at h ⊢
  · intro h r hr
    unfold digitalTrackDelete at h hr
    cases hf : repoGetById DigitalTrack.id db.digital_tracks id <;> simp [hf] at h hr
    obtain ⟨-, hid⟩ := repoGetById_some hf
    omega
  · rw [physicalTrackDelete_fst, repoGetById_isSome_iff]
  · intro h
    unfold physicalTrackDelete at h ⊢
    cases hf : repoGetById PhysicalTrack.id db.physical_tracks id <;> simp [hf] at h ⊢
  · intro h r hr
    unfold physicalTrackDelete at h hr
    cases hf : repoGetById PhysicalTrack.id db.physical_tracks id <;> simp [hf] at h hr
    obtain ⟨-, hid⟩ := repoGetById_some hf
    omega
  · rw [releaseDelete_fst, repoGetById_isSome_iff]
  · intro h
    unfold releaseDelete at h ⊢
    cases hf : repoGetById Release.id db.releases id <;> simp [hf] at h ⊢
  · intro h r hr
    unfold releaseDelete at h hr
    cases hf : repoGetById Release.id db.releases id <;> simp [hf] at h hr
    obtain ⟨-, hid⟩ := repoGetById_some hf
    omega
  · rw [importBatchDelete_fst, repoGetById_isSome_iff]
  · intro h
    unfold importBatchDelete at h ⊢
    cases hf : repoGetById ImportBatch.id db.import_batches id <;> simp [hf] at h ⊢
  · intro h r hr
    unfold importBatchDelete at h hr
    cases hf : repoGetById ImportBatch.id db.import_batches id <;> simp [hf] at h hr
    obtain ⟨-, hid⟩ := repoGetById_some hf
    omega

/-- Witness for C5 at a concrete store: identifier `2` is missing from
the one-track store `dbC5`. -/
theorem notfound_absent_semantics_witness :
    trackGetById dbC5 2 = none ∧ trackUpdate dbC5 9 2 [("artist", Value.vStr "B")] = (none, dbC5) ∧
    (trackDelete dbC5 2).1 = false := by
  have h := notfound_absent_semantics dbC5 2 9 [("artist", Value.vStr "B")]
  have h1 : trackGetById dbC5 2 = none := h.1 (by decide)
  refine ⟨h1, h.2.2.2.2.2.1 h1, ?_⟩
  by_contra hb
  have h2 := (h.2.2.2.2.2.2.2.2.2.2.1).mp (by revert hb; cases (trackDelete dbC5 2).1 <;> simp)
  revert h2
  decide

/-- C6 counterexample: with a provided limit of `0`, `get_all` does
not return at most `0` rows — the truthiness guard `if limit:` treats
`0` as absent and the whole table is returned. -/
theorem get_all_zero_limit_cex :
    trackGetAll dbC6 (some 0) 0 = [tC6] ∧
    ¬ ((trackGetAll dbC6 (some 0) 0).length ≤ 0) := by
  constructor
  · rfl
  · decide

/-- C6 amended: `get_all(limit?, offset=0)` applies the offset
before the limit; when the limit is absent — or provided as `0`, which
the truthiness guard treats as absent — it returns all remaining rows
from the offset, and a provided non-zero limit returns at most that many
rows taken after skipping `offset` rows. -/
theorem get_all_offset_before_limit {ρ : Type} (rows : List ρ) (offset : Nat) :
    (repoGetAll rows none offset = rows.drop offset) ∧
    (repoGetAll rows (some 0) offset = rows.drop offset) ∧
    (∀ i : Nat, (repoGetAll rows none offset)[i]? = rows[offset + i]?) ∧
    (∀ n : Nat, n ≠ 0 →
      (repoGetAll rows (some n) offset).length ≤ n ∧
      ∀ i : Nat, i < n → (repoGetAll rows (some n) offset)[i]? = rows[offset + i]?) := by
  refine ⟨rfl, rfl, ?_, ?_⟩
  · intro i
    simp [repoGetAll, List.getElem?_drop]
  · intro n hn
    have hne : (n != 0) = true := by simpa using hn
    constructor
    · simp [repoGetAll, hne, List.length_take_le]
    · intro i hi
      simp only [repoGetAll, hne, if_pos]
      rw [List.getElem?_take_of_lt hi, List.getElem?_drop]

/-- Witness for the amended C6 on a concrete three-row table. -/
theorem get_all_offset_before_limit_witness :
    (repoGetAll [song1, song2, song3] (some 1) 1).length ≤ 1 ∧
    (repoGetAll [song1, song2, song3] (some 1) 1)[0]? = [song1, song2, song3][1]? :=
  ⟨((get_all_offset_before_limit [song1, song2, song3] 1).2.2.2 1 (by decide)).1,
   ((get_all_offset_before_limit [song1, song2, song3] 1).2.2.2 1 (by decide)).2 0 (by decide)⟩

theorem maxStep_spec (acc : Option ImportBatch) (b : ImportBatch) :
    ∃ a, maxStep acc b = some a ∧ b.created_at ≤ a.created_at ∧
      (a = b ∨ acc = some a) ∧
      ∀ c, acc = some c → c.created_at ≤ a.created_at := by
  cases acc with
  | none => exact ⟨b, rfl, le_refl _, Or.inl rfl, by simp⟩
  | some m =>
    by_cases h : b.created_at > m.created_at
    · refine ⟨b, by simp [maxStep, h], le_refl _, Or.inl rfl, ?_⟩
      intro c hc
      injection hc with hc
      subst hc
      omega
    · refine ⟨m, by simp [maxStep, h], by omega, Or.inr rfl, ?_⟩
      intro c hc
      injection hc with hc
      subst hc
      omega

theorem maxFold_spec (l : List ImportBatch) : ∀ acc : Option ImportBatch,
    (l.foldl maxStep acc = none → acc = none ∧ l = []) ∧
    (∀ m, l.foldl maxStep acc = some m →
      (acc = some m ∨ m ∈ l) ∧
      (∀ x ∈ l, x.created_at ≤ m.created_at) ∧
      (∀ a, acc = some a → a.created_at ≤ m.created_at)) := by
  induction l with
  | nil =>
    intro acc
    refine ⟨fun h => ⟨h, rfl⟩, fun m h => ⟨Or.inl h, by simp, ?_⟩⟩
    intro a ha
    rw [ha] at h
    injection h with h
    rw [h]
  | cons b l ih =>
    intro acc
    obtain ⟨a, hstep, hba, hor, hacc⟩ := maxStep_spec acc b
    constructor
    · intro h
      rw [List.foldl_cons, hstep] at h
      obtain ⟨h1, -⟩ := (ih (some a)).1 h
      exact absurd h1 (by simp)
    · intro m h
      rw [List.foldl_cons, hstep] at h
      obtain ⟨hmem, hmax, hge⟩ := (ih (some a)).2 m h
      have ham : a.created_at ≤ m.created_at := hge a rfl
      refine ⟨?_, ?_, ?_⟩
      · rcases hmem with hmem | hmem
        · injection hmem with hmem
          rcases hor with hab | hacc2
          · exact Or.inr (by rw [← hmem, hab]; exact List.mem_cons_self b l)
          · exact Or.inl (by rw [← hmem]; exact hacc2)
        · exact Or.inr (List.mem_cons_of_mem b hmem)
      · intro x hx
        rcases List.mem_cons.mp hx with hx | hx
        · rw [hx]; omega
        · exact hmax x hx
      · intro c hc
        have := hacc c hc
        omega

/-- C7: `get_latest_successful_import(source_type)` returns a row of
maximal creation timestamp among the rows with `status = "success"` for
that source type — absent exactly when no such row exists — and on the
§8 fixture (batches success/100, error, success/150 inserted in that
order, with increasing creation clock) it returns the success/150
record. -/
theorem get_latest_successful_import_spec (db : DB) (st : String) :
    (get_latest_successful_import db st = none ↔
      ∀ b ∈ db.import_batches, ¬ (b.source_type = st ∧ b.status = "success")) ∧
    (∀ b, get_latest_successful_import db st = some b →
      b ∈ db.import_batches ∧ b.source_type = st ∧ b.status = "success" ∧
      ∀ x ∈ db.import_batches, x.source_type = st → x.status = "success" →
        x.created_at ≤ b.created_at) ∧
    get_latest_successful_import batchDB "traktor_nml" = some batchC := by
  refine ⟨?_, ?_, by rfl⟩
  · constructor
    · intro h
      intro b hb hprop
      have h1 := (maxFold_spec _ none).1 h
      rw [List.filter_eq_nil_iff] at h1
      exact h1.2 b hb (by simp [hprop.1, hprop.2])
    · intro h
      rw [get_latest_successful_import, maxByCreatedAt]
      have hnil : db.import_batches.filter
          (fun b => b.source_type == st && b.status == "success") = [] := by
        rw [List.filter_eq_nil_iff]
        intro b hb
        simp only [Bool.and_eq_true, beq_iff_eq, not_and]
        intro h1 h2
        exact absurd ⟨h1, h2⟩ (h b hb)
      rw [hnil]
      rfl
  · intro b h
    obtain ⟨hmem, hmax, -⟩ := (maxFold_spec _ none).2 b h
    rcases hmem with hmem | hmem
    · exact absurd hmem (by simp)
    · have hm := List.mem_filter.mp hmem
      obtain ⟨hin, hprop⟩ := hm
      simp only [Bool.and_eq_true, beq_iff_eq] at hprop
      refine ⟨hin, hprop.1, hprop.2, ?_⟩
      intro x hx h1 h2
      exact hmax x (List.mem_filter.mpr ⟨hx, by simp [h1, h2]⟩)

/-- Witness for C7 at the fixture: the returned success/150 record is a
matching row and dominates the success/100 record's timestamp. -/
theorem get_latest_successful_import_spec_witness :
    batchC ∈ batchDB.import_batches ∧ batchA.created_at ≤ batchC.created_at :=
  ⟨(((get_latest_successful_import_spec batchDB "traktor_nml").2.1 batchC
      (get_latest_successful_import_spec batchDB "traktor_nml").2.2)).1,
   (((get_latest_successful_import_spec batchDB "traktor_nml").2.1 batchC
      (get_latest_successful_import_spec batchDB "traktor_nml").2.2)).2.2.2 batchA
      (by decide) (by decide) (by decide)⟩

/-- C1: The transaction scope commits on normal return of the body,
and on any raised failure rolls back all uncommitted work and re-raises
the original failure (the session release of the `finally` block has no
observable counterpart in the state model); consequently a body that
creates and flushes a track and then raises before scope exit leaves the
store unchanged, and a fresh scope's `get_by_id` on the created
identifier returns absent. -/
theorem session_scope_tx {ε α : Type} (db : DB) (hwf : dbWF db)
    (body : DB → Except ε (α × DB)) :
    (∀ a db2, body db = .ok (a, db2) → session_scope db body = (.ok a, db2)) ∧
    (∀ e, body db = .error e → session_scope db body = (.error e, db)) ∧
    (∀ artist title album label year dur now (e : ε),
      session_scope db (fun d =>
        match trackCreate d artist title album label year dur now with
        | (_t, _d2) => (Except.error e : Except ε (α × DB))) = (.error e, db) ∧
      trackGetById db (trackCreate db artist title album label year dur now).1.id = none) := by
  refine ⟨?_, ?_, ?_⟩
  · intro a db2 h
    simp [session_scope, h]
  · intro e h
    simp [session_scope, h]
  · intro artist title album label year dur now e
    constructor
    · rfl
    · have hid : (trackCreate db artist title album label year dur now).1.id
          = db.next_track_id := rfl
      rw [hid]
      apply repoGetById_eq_none
      intro r hr
      have := hwf.1 r hr
      omega

/-- Witness for C1: a concrete failing scope over the §8 fixture leaves
the store unchanged and the created identifier unqueryable. -/
theorem session_scope_tx_witness :
    session_scope fixtureDB (fun d =>
      match trackCreate d "A" "T" none none none none 7 with
      | (_t, _d2) => (Except.error "boom" : Except String (Unit × DB))) =
        (.error "boom", fixtureDB) ∧
    trackGetById fixtureDB (trackCreate fixtureDB "A" "T" none none none none 7).1.id = none :=
  (session_scope_tx fixtureDB (by constructor <;> decide)
    (fun _ => (Except.error "unused" : Except String (Unit × DB)))).2.2
    "A" "T" none none none none 7 "boom"

/-- C2: Deleting a `Track` removes, in the same session-state
transition, every `DigitalTrack` and `PhysicalTrack` row whose
`track_id` references it while keeping every other child row and the
releases; deleting a `Release` removes every `PhysicalTrack` row whose
`release_id` references it while leaving the tracks and their
`DigitalTrack` rows unchanged. -/
theorem delete_cascades (db : DB) (id : Int) :
    ((trackDelete db id).1 = true →
      (∀ d ∈ (trackDelete db id).2.digital_tracks, d.track_id ≠ id) ∧
      (∀ p ∈ (trackDelete db id).2.physical_tracks, p.track_id ≠ id) ∧
      (∀ d ∈ db.digital_tracks, d.track_id ≠ id → d ∈ (trackDelete db id).2.digital_tracks) ∧
      (∀ p ∈ db.physical_tracks, p.track_id ≠ id → p ∈ (trackDelete db id).2.physical_tracks) ∧
      (trackDelete db id).2.releases = db.releases) ∧
    ((releaseDelete db id).1 = true →
      (∀ p ∈ (releaseDelete db id).2.physical_tracks, p.release_id ≠ id) ∧
      (∀ p ∈ db.physical_tracks, p.release_id ≠ id → p ∈ (releaseDelete db id).2.physical_tracks) ∧
      (releaseDelete db id).2.tracks = db.tracks ∧
      (releaseDelete db id).2.digital_tracks = db.digital_tracks) := by
  constructor
  · intro h
    unfold trackDelete at h ⊢
    rcases hf : repoGetById Track.id db.tracks id with _ | t
    · rw [hf] at h
      simp at h
    · obtain ⟨-, hid⟩ := repoGetById_some hf
      subst hid
      refine ⟨?_, ?_, ?_, ?_, rfl⟩
      · intro d hd
        simpa using (List.mem_filter.mp hd).2
      · intro p hp
        simpa using (List.mem_filter.mp hp).2
      · intro d hd hne
        exact List.mem_filter.mpr ⟨hd, by simpa using hne⟩
      · intro p hp hne
        exact List.mem_filter.mpr ⟨hp, by simpa using hne⟩
  · intro h
    unfold releaseDelete at h ⊢
    rcases hf : repoGetById Release.id db.releases id with _ | r
    · rw [hf] at h
      simp at h
    · obtain ⟨-, hid⟩ := repoGetById_some hf
      subst hid
      refine ⟨?_, ?_, rfl, rfl⟩
      · intro p hp
        simpa using (List.mem_filter.mp hp).2
      · intro p hp hne
        exact List.mem_filter.mpr ⟨hp, by simpa using hne⟩

/-- Witness for C2 at a concrete store with one track, one digital
child, one physical child and one release. -/
theorem delete_cascades_witness :
    (∀ d ∈ (trackDelete dbC2 1).2.digital_tracks, d.track_id ≠ 1) ∧
    (trackDelete dbC2 1).2.releases = dbC2.releases ∧
    (releaseDelete dbC2 1).2.tracks = dbC2.tracks ∧
    (releaseDelete dbC2 1).2.digital_tracks = dbC2.digital_tracks := by
  have h1 := (delete_cascades dbC2 1).1 (by decide)
  have h2 := (delete_cascades dbC2 1).2 (by decide)
  exact ⟨h1.1, h1.2.2.2.2, h2.2.2.1, h2.2.2.2⟩

/-- C10: A track whose `album` is `NULL` is never returned by
`search_by_album(text)` for any text (the unconditional
`album ILIKE '%text%'` filter never matches `NULL`, even for the empty
string), nor by `search_tracks` when a non-empty album criterion is
supplied. -/
theorem null_album_excluded (db : DB) (t : Track) (ht : t.album = none) :
    (∀ text limit, t ∉ search_by_album db text limit) ∧
    (∀ artist title album year limit, album ≠ "" →
      t ∉ search_tracks db artist title (some album) year limit) := by
  have habs : ∀ pat, ilikeOpt t.album pat ≠ true := by
    intro pat
    rw [ht]
    simp [ilikeOpt]
  have hq3 : ∀ (pat : String) (l : List Track),
      t ∈ l.filter (fun x => ilikeOpt x.album pat) → False :=
    fun pat l hl => habs pat (List.mem_filter.mp hl).2
  constructor
  · intro text limit hmem
    simp only [search_by_album] at hmem
    split at hmem
    · split at hmem
      · exact hq3 text _ (List.take_subset _ _ hmem)
      · exact hq3 text _ hmem
    · exact hq3 text _ hmem
  · intro artist title album year limit hal hmem
    simp only [search_tracks] at hmem
    have hne : (album == "") = false := by simpa using hal
    rw [hne] at hmem
    simp only [Bool.false_eq_true, if_false] at hmem
    split at hmem
    · split at hmem
      · have hm := List.take_subset _ _ hmem
        split at hm
        · split at hm
          · exact hq3 album _ hm
          · exact hq3 album _ (List.mem_filter.mp hm).1
        · exact hq3 album _ hm
      · split at hmem
        · split at hmem
          · exact hq3 album _ hmem
          · exact hq3 album _ (List.mem_filter.mp hmem).1
        · exact hq3 album _ hmem
    · split at hmem
      · split at hmem
        · exact hq3 album _ hmem
        · exact hq3 album _ (List.mem_filter.mp hmem).1
      · exact hq3 album _ hmem

/-- Witness for C10: the §8 fixture's `Song4` has no album and is
absent from both album searches. -/
theorem null_album_excluded_witness :
    song4 ∉ search_by_album fixtureDB "" none ∧
    song4 ∉ search_tracks fixtureDB none none (some "Album A") none none :=
  ⟨(null_album_excluded fixtureDB song4 (by rfl)).1 "" none,
   (null_album_excluded fixtureDB song4 (by rfl)).2 none none "Album A" none none (by decide)⟩

/-- Regrouping of a four-fold Boolean conjunction. -/
theorem bool_and_pack (a b c d : Bool) : (d && (c && (b && a))) = (a && b && c && d) := by
  cases a <;> cases b <;> cases c <;> cases d <;> rfl

/-- One truthiness-guarded text-criterion stage of `search_tracks`,
as a single filter. -/
theorem optTextStage (q : List Track) (o : Option String) (f : Track → String → Bool) :
    (match o with
      | some a => if a == "" then q else q.filter (fun t => f t a)
      | none => q) =
      q.filter (fun t => match o with
        | some a => a == "" || f t a
        | none => true) := by
  rcases o with _ | a
  · exact (List.filter_eq_self.mpr (by simp)).symm
  · by_cases h : (a == "") = true
    · simp only [h, if_true, Bool.true_or]
      exact (List.filter_eq_self.mpr (by simp)).symm
    · simp only [h, Bool.false_eq_true, if_false, Bool.false_or]

/-- The truthiness-guarded year stage of `search_tracks`, as a single
filter. -/
theorem optYearStage (q : List Track) (o : Option Int) :
    (match o with
      | some y => if y == 0 then q else q.filter (fun t => t.year == some y)
      | none => q) =
      q.filter (fun t => match o with
        | some y => y == 0 || (t.year == some y)
        | none => true) := by
  rcases o with _ | y
  · exact (List.filter_eq_self.mpr (by simp)).symm
  · by_cases h : (y == 0) = true
    · simp only [h, if_true, Bool.true_or]
      exact (List.filter_eq_self.mpr (by simp)).symm
    · simp only [h, Bool.false_eq_true, if_false, Bool.false_or]

/-- C3 counterexample: a supplied `year` criterion of `0` is not
applied as an exact match — the truthiness guard `if year:` skips the
filter and every track is returned, including tracks whose year differs
from `0`. -/
theorem search_tracks_zero_year_cex :
    search_tracks fixtureDB none none none (some 0) none = [song1, song2, song3, song4] ∧
    song1.year ≠ some 0 := by
  constructor
  · rfl
  · decide

/-- C3 amended: `search_tracks` is the conjunctive filter of the
supplied criteria where an absent, empty-string or zero criterion
imposes no constraint, a supplied non-empty text criterion is a
case-insensitive substring match, and a supplied non-zero year is an
exact match; on the §8 fixture, `search_tracks(artist="Artist A",
year=2020)` returns exactly Song1 and Song3. -/
theorem search_tracks_conjunctive (db : DB) (artist title album : Option String)
    (year : Option Int) :
    search_tracks db artist title album year none =
      db.tracks.filter (fun t => track_matches_amended t artist title album year) ∧
    search_tracks fixtureDB (some "Artist A") none none (some 2020) none = [song1, song3] := by
  constructor
  · simp only [search_tracks, track_matches_amended]
    rw [optTextStage, optTextStage, optTextStage, optYearStage]
    simp only [List.filter_filter]
    apply List.filter_congr
    intro x hx
    rcases artist with _ | a <;> rcases title with _ | ti <;>
      rcases album with _ | al <;> rcases year with _ | y <;>
      exact bool_and_pack _ _ _ _
  · rfl

theorem mem_joinChildren (keys : List Int) (tracks : List Track) (t : Track) :
    t ∈ joinChildren keys tracks ↔ t ∈ tracks ∧ t.id ∈ keys := by
  induction tracks with
  | nil => simp [joinChildren]
  | cons b l ih =>
    simp only [joinChildren, List.mem_append, List.mem_map, List.mem_filter, ih,
      List.mem_cons]
    constructor
    · rintro (⟨k, ⟨hk, hkb⟩, rfl⟩ | ⟨h1, h2⟩)
      · refine ⟨Or.inl rfl, ?_⟩
        have hkt : k = b.id := by simpa using hkb
        rw [← hkt]
        exact hk
      · exact ⟨Or.inr h1, h2⟩
    · rintro ⟨h1 | h1, h2⟩
      · refine Or.inl ⟨b.id, ⟨?_, by simp⟩, h1.symm⟩
        rw [← h1]
        exact h2
      · exact Or.inr ⟨h1, h2⟩

theorem mem_dedupById (l : List Track) (seen : List Int)
    (huniq : ∀ x ∈ l, ∀ y ∈ l, x.id = y.id → x = y) (a : Track) :
    a ∈ dedupById seen l ↔ (a ∈ l ∧ seen.contains a.id = false) := by
  induction l generalizing seen with
  | nil => simp [dedupById]
  | cons b l ih =>
    have huniq2 : ∀ x ∈ l, ∀ y ∈ l, x.id = y.id → x = y :=
      fun x hx y hy => huniq x (List.mem_cons_of_mem b hx) y (List.mem_cons_of_mem b hy)
    by_cases hb : seen.contains b.id = true
    · rw [dedupById, if_pos hb, ih seen huniq2]
      constructor
      · rintro ⟨ha, hs⟩
        exact ⟨List.mem_cons_of_mem b ha, hs⟩
      · rintro ⟨ha, hs⟩
        rcases List.mem_cons.mp ha with rfl | ha
        · rw [hb] at hs
          cases hs
        · exact ⟨ha, hs⟩
    · rw [dedupById, if_neg hb, List.mem_cons]
      have hbf : seen.contains b.id = false := by
        revert hb
        cases seen.contains b.id <;> simp
      constructor
      · rintro (rfl | hmem)
        · exact ⟨List.mem_cons_self a l, hbf⟩
        · obtain ⟨ha, hs⟩ := (ih (b.id :: seen) huniq2).mp hmem
          have hs2 : seen.contains a.id = false := by
            revert hs
            simp only [List.contains_cons]
            cases seen.contains a.id <;> simp
          exact ⟨List.mem_cons_of_mem b ha, hs2⟩
      · rintro ⟨ha0, hs⟩
        rcases List.mem_cons.mp ha0 with rfl | ha
        · exact Or.inl rfl
        · by_cases hab : a = b
          · exact Or.inl hab
          · refine Or.inr ((ih (b.id :: seen) huniq2).mpr ⟨ha, ?_⟩)
            have hnid : ¬ a.id = b.id := fun hid =>
              hab (huniq a (List.mem_cons_of_mem b ha) b (List.mem_cons_self b l) hid)
            have hne : (a.id == b.id) = false := by simpa using hnid
            rw [List.contains_cons, Bool.or_eq_false_iff]
            exact ⟨hne, hs⟩

theorem dedupById_ids_nodup (l : List Track) (seen : List Int) :
    ((dedupById seen l).map Track.id).Nodup ∧
    ∀ a ∈ dedupById seen l, seen.contains a.id = false := by
  induction l generalizing seen with
  | nil => simp [dedupById]
  | cons b l ih =>
    by_cases hb : seen.contains b.id = true
    · rw [dedupById, if_pos hb]
      exact ih seen
    · rw [dedupById, if_neg hb]
      obtain ⟨hn, hd⟩ := ih (b.id :: seen)
      have hbf : seen.contains b.id = false := by
        revert hb
        cases seen.contains b.id <;> simp
      refine ⟨?_, ?_⟩
      · simp only [List.map_cons, List.nodup_cons]
        refine ⟨?_, hn⟩
        intro hmem
        obtain ⟨a, ha, hid⟩ := List.mem_map.mp hmem
        have h2 := hd a ha
        rw [List.contains_cons, hid] at h2
        simp at h2
      · intro a ha
        rcases List.mem_cons.mp ha with rfl | ha
        · exact hbf
        · have h2 := hd a ha
          revert h2
          simp only [List.contains_cons]
          cases seen.contains a.id <;> simp

/-- C9 counterexample: a track with two digital formats appears
once, not twice — the legacy SQLAlchemy `Query` uniquifies full-entity
results by primary-key identity, so the joined duplicate rows collapse. -/
theorem join_no_dedup_cex :
    get_with_digital_formats dbC9 none = [tC9] ∧
    (get_with_digital_formats dbC9 none).length ≠ 2 := by
  constructor
  · rfl
  · decide

/-- C9 amended: `get_with_digital_formats` and
`get_with_physical_formats` return exactly the tracks that have at
least one child of the respective kind (inner-join semantics), but the
fetched entity rows are de-duplicated by primary-key identity by the
legacy `Query`, so each qualifying track appears exactly once. -/
theorem with_formats_join_dedup (db : DB) (hwf : dbWF db) :
    (∀ t, t ∈ get_with_digital_formats db none ↔
      t ∈ db.tracks ∧ ∃ d ∈ db.digital_tracks, d.track_id = t.id) ∧
    ((get_with_digital_formats db none).map Track.id).Nodup ∧
    (∀ t, t ∈ get_with_physical_formats db none ↔
      t ∈ db.tracks ∧ ∃ p ∈ db.physical_tracks, p.track_id = t.id) ∧
    ((get_with_physical_formats db none).map Track.id).Nodup := by
  have hinj := List.inj_on_of_nodup_map hwf.2
  have huniqD : ∀ x ∈ joinChildren (db.digital_tracks.map DigitalTrack.track_id) db.tracks,
      ∀ y ∈ joinChildren (db.digital_tracks.map DigitalTrack.track_id) db.tracks,
      x.id = y.id → x = y := by
    intro x hx y hy hid
    exact hinj ((mem_joinChildren _ _ x).mp hx).1 ((mem_joinChildren _ _ y).mp hy).1 hid
  have huniqP : ∀ x ∈ joinChildren (db.physical_tracks.map PhysicalTrack.track_id) db.tracks,
      ∀ y ∈ joinChildren (db.physical_tracks.map PhysicalTrack.track_id) db.tracks,
      x.id = y.id → x = y := by
    intro x hx y hy hid
    exact hinj ((mem_joinChildren _ _ x).mp hx).1 ((mem_joinChildren _ _ y).mp hy).1 hid
  refine ⟨?_, ?_, ?_, ?_⟩
  · intro t
    rw [get_with_digital_formats, mem_dedupById _ _ huniqD, mem_joinChildren]
    simp [List.mem_map]
  · exact (dedupById_ids_nodup _ []).1
  · intro t
    rw [get_with_physical_formats, mem_dedupById _ _ huniqP, mem_joinChildren]
    simp [List.mem_map]
  · exact (dedupById_ids_nodup _ []).1

/-- Witness for the amended C9 at the two-digital-children store. -/
theorem with_formats_join_dedup_witness :
    tC9 ∈ get_with_digital_formats dbC9 none ∧
    ((get_with_digital_formats dbC9 none).map Track.id).Nodup :=
  ⟨((with_formats_join_dedup dbC9 (by constructor <;> decide)).1 tC9).mpr
     ⟨by decide, dC9a, by decide, by decide⟩,
   (with_formats_join_dedup dbC9 (by constructor <;> decide)).2.1⟩

/-! Helper lemmas for the field-merge behaviour of `update` (C4, C8). -/

set_option maxHeartbeats 1000000 in
theorem trackGetAttr_congr (t t2 : Track) (k : String)
    (h1 : k = "id" → t2.id = t.id)
    (h2 : k = "artist" → t2.artist = t.artist)
    (h3 : k = "title" → t2.title = t.title)
    (h4 : k = "album" → t2.album = t.album)
    (h5 : k = "label" → t2.label = t.label)
    (h6 : k = "year" → t2.year = t.year)
    (h7 : k = "duration_ms" → t2.duration_ms = t.duration_ms)
    (h8 : k = "created_at" → t2.created_at = t.created_at)
    (h9 : k = "updated_at" → t2.updated_at = t.updated_at) :
    trackGetAttr t2 k = trackGetAttr t k := by
  unfold trackGetAttr
  split_ifs <;> simp_all

set_option maxHeartbeats 1600000 in
theorem trackGetAttr_setAttr_ne (t : Track) (k2 : String) (v : Value) (k : String)
    (h : ¬ k = k2) :
    trackGetAttr (trackSetAttr t k2 v) k = trackGetAttr t k := by
  unfold trackSetAttr
  split_ifs <;>
    cases v <;>
    (apply trackGetAttr_congr <;> intro hk <;> simp_all)

set_option maxHeartbeats 1000000 in
theorem trackGetAttr_setAttr_self (t : Track) (k : String) (v : Value)
    (hw : trackWellTyped k v = true) :
    trackGetAttr (trackSetAttr t k v) k = v := by
  unfold trackWellTyped at hw
  split at hw <;> first | rfl | cases hw

set_option maxHeartbeats 1000000 in
theorem trackWellTyped_col (k : String) (v : Value) (hw : trackWellTyped k v = true) :
    trackColumns.contains k = true := by
  unfold trackWellTyped at hw
  split at hw <;> first | rfl | decide | cases hw

theorem trackGetAttr_touch_ne (t : Track) (n : Nat) (k : String) (h : ¬ k = "updated_at") :
    trackGetAttr { t with updated_at := n } k = trackGetAttr t k := by
  apply trackGetAttr_congr <;> intro hk <;> first | rfl | exact absurd hk h

theorem trackFoldl_not_mem (kwargs : List (String × Value)) (t : Track) (k : String)
    (hk : ∀ kv ∈ kwargs, ¬ k = kv.1) :
    trackGetAttr (kwargs.foldl
      (fun acc kv => if trackHasAttr kv.1 then trackSetAttr acc kv.1 kv.2 else acc) t) k =
    trackGetAttr t k := by
  induction kwargs generalizing t with
  | nil => rfl
  | cons kv rest ih =>
    simp only [List.foldl_cons]
    rw [ih _ (fun x hx => hk x (List.mem_cons_of_mem kv hx))]
    by_cases hh : trackHasAttr kv.1 = true
    · rw [if_pos hh]
      exact trackGetAttr_setAttr_ne t kv.1 kv.2 k (hk kv (List.mem_cons_self kv rest))
    · rw [if_neg hh]

theorem trackFoldl_mem (kwargs : List (String × Value)) (t : Track) (k : String) (v : Value)
    (hmem : (k, v) ∈ kwargs) (hnodup : (kwargs.map Prod.fst).Nodup)
    (hw : trackWellTyped k v = true) :
    trackGetAttr (kwargs.foldl
      (fun acc kv => if trackHasAttr kv.1 then trackSetAttr acc kv.1 kv.2 else acc) t) k = v := by
  induction kwargs generalizing t with
  | nil => cases hmem
  | cons kv rest ih =>
    simp only [List.map_cons, List.nodup_cons] at hnodup
    rcases List.mem_cons.mp hmem with heq | hmem2
    · subst heq
      simp only [List.foldl_cons]
      have hknotin : ∀ kv2 ∈ rest, ¬ k = kv2.1 := by
        intro kv2 h2 hkk
        have hm : kv2.1 ∈ List.map Prod.fst rest := List.mem_map_of_mem Prod.fst h2
        rw [← hkk] at hm
        exact hnodup.1 hm
      rw [trackFoldl_not_mem rest _ k hknotin]
      have hh : trackHasAttr k = true := by
        rw [trackHasAttr, trackWellTyped_col k v hw]
        rfl
      rw [if_pos hh]
      exact trackGetAttr_setAttr_self t k v hw
    · simp only [List.foldl_cons]
      exact ih _ hmem2 hnodup.2

theorem trackFoldl_skip (kwargs : List (String × Value)) (t : Track)
    (h : ∀ kv ∈ kwargs, trackHasAttr kv.1 = false) :
    kwargs.foldl (fun acc kv => if trackHasAttr kv.1 then trackSetAttr acc kv.1 kv.2 else acc) t
      = t := by
  induction kwargs generalizing t with
  | nil => rfl
  | cons kv rest ih =>
    simp only [List.foldl_cons]
    have hf : ¬ trackHasAttr kv.1 = true := by
      rw [h kv (List.mem_cons_self kv rest)]
      simp
    rw [if_neg hf]
    exact ih t (fun x hx => h x (List.mem_cons_of_mem kv hx))

theorem trackFoldl_pres (kwargs : List (String × Value)) (t : Track) (k : String)
    (hk : ∀ kv ∈ kwargs, ¬ k = kv.1 ∨ trackHasAttr kv.1 = false) :
    trackGetAttr (kwargs.foldl
      (fun acc kv => if trackHasAttr kv.1 then trackSetAttr acc kv.1 kv.2 else acc) t) k =
    trackGetAttr t k := by
  induction kwargs generalizing t with
  | nil => rfl
  | cons kv rest ih =>
    simp only [List.foldl_cons]
    rw [ih _ (fun x hx => hk x (List.mem_cons_of_mem kv hx))]
    rcases hk kv (List.mem_cons_self kv rest) with hne | hfa
    · by_cases hh : trackHasAttr kv.1 = true
      · rw [if_pos hh]
        exact trackGetAttr_setAttr_ne t kv.1 kv.2 k hne
      · rw [if_neg hh]
    · have hff : ¬ trackHasAttr kv.1 = true := by
        rw [hfa]
        simp
      rw [if_neg hff]

/-- Lemma: the Value reading of an optional string column is injective. -/
theorem optStr_val_inj (o1 o2 : Option String)
    (h : (match o1 with | some x => Value.vStr x | none => Value.vNone) =
         (match o2 with | some x => Value.vStr x | none => Value.vNone)) : o1 = o2 := by
  cases o1 <;> cases o2 <;> simp_all

/-- Lemma: the Value reading of an optional integer column is injective. -/
theorem optInt_val_inj (o1 o2 : Option Int)
    (h : (match o1 with | some x => Value.vInt x | none => Value.vNone) =
         (match o2 with | some x => Value.vInt x | none => Value.vNone)) : o1 = o2 := by
  cases o1 <;> cases o2 <;> simp_all

/-- Lemma: two tracks agreeing on `trackGetAttr` at every attribute name
are equal (the nine columns determine the row). -/
theorem track_ext_getAttr (t1 t2 : Track)
    (h : ∀ k, trackGetAttr t1 k = trackGetAttr t2 k) : t1 = t2 := by
  obtain ⟨i1, a1, ti1, al1, l1, y1, d1, c1, u1⟩ := t1
  obtain ⟨i2, a2, ti2, al2, l2, y2, d2, c2, u2⟩ := t2
  have h1 : Value.vInt i1 = Value.vInt i2 := h "id"
  have h2 : Value.vStr a1 = Value.vStr a2 := h "artist"
  have h3 : Value.vStr ti1 = Value.vStr ti2 := h "title"
  have e4 : al1 = al2 := optStr_val_inj al1 al2 (h "album")
  have e5 : l1 = l2 := optStr_val_inj l1 l2 (h "label")
  have e6 : y1 = y2 := optInt_val_inj y1 y2 (h "year")
  have e7 : d1 = d2 := optInt_val_inj d1 d2 (h "duration_ms")
  have h8 : Value.vTime c1 = Value.vTime c2 := h "created_at"
  have h9 : Value.vTime u1 = Value.vTime u2 := h "updated_at"
  simp_all

theorem repoUpdate_found {ρ : Type} [DecidableEq ρ] (getId : ρ → Int)
    (hasAttr : String → Bool)
    (setAttr : ρ → String → Value → ρ) (touch : ρ → ρ) (updSame : ρ → ρ → Bool)
    (rows : List ρ) (id : Int)
    (kwargs : List (String × Value)) (r : ρ)
    (h : repoGetById getId rows id = some r) :
    repoUpdate getId hasAttr setAttr touch updSame rows id kwargs =
      (some (repoUpdateRow hasAttr setAttr touch updSame r kwargs),
        rows.map (fun x => if getId x == id then
          repoUpdateRow hasAttr setAttr touch updSame r kwargs else x)) := by
  simp [repoUpdate, h]

/-- C4 counterexample: updating only `artist` also changes
`updated_at` (the `onupdate=datetime.utcnow` hook fires on the flushed
`UPDATE`), so `update` does not leave every non-provided field
unchanged. -/
theorem update_changes_updated_at_cex :
    ((trackUpdate dbC4 5 1 [("artist", Value.vStr "B")]).1.map Track.updated_at) = some 5 ∧
    tC4.updated_at = 0 ∧
    ¬ "updated_at" ∈ [("artist", Value.vStr "B")].map Prod.fst := by
  refine ⟨?_, rfl, by decide⟩
  rfl

/-- C4 amended: `update(id, fields)` merges exactly the provided
recognized column fields into the existing row; every other column
field is left unchanged except `Track.updated_at`, which the
`onupdate` hook refreshes when the update dirties the row; a field name
failing `hasattr` is silently ignored (no error), and an update
supplying only such names leaves the row and the store unchanged;
`update` on a missing identifier returns absent and changes nothing. -/
theorem update_field_merge (db : DB) (now : Nat) (id : Int)
    (kwargs : List (String × Value)) :
    (trackGetById db id = none → trackUpdate db now id kwargs = (none, db)) ∧
    (∀ t, trackGetById db id = some t →
      (kwargs.map Prod.fst).Nodup →
      ∃ r, (trackUpdate db now id kwargs).1 = some r ∧
        (∀ k v, (k, v) ∈ kwargs → trackWellTyped k v = true → ¬ k = "updated_at" →
          trackGetAttr r k = v) ∧
        (∀ k, trackColumns.contains k = true → ¬ k = "updated_at" →
          (∀ kv ∈ kwargs, ¬ kv.1 = k) → trackGetAttr r k = trackGetAttr t k)) ∧
    (∀ t, trackGetById db id = some t → (db.tracks.map Track.id).Nodup →
      (∀ kv ∈ kwargs, trackHasAttr kv.1 = false) →
      trackUpdate db now id kwargs = (some t, db)) := by
  refine ⟨?_, ?_, ?_⟩
  · intro h
    simp [trackUpdate, repoUpdate_missing _ _ _ _ _ _ _ _ h]
  · intro t hfound hnodup
    have hu := repoUpdate_found Track.id trackHasAttr trackSetAttr
      (fun x => { x with updated_at := now })
      (fun r1 r0 => r1.updated_at == r0.updated_at) db.tracks id kwargs t hfound
    refine ⟨repoUpdateRow trackHasAttr trackSetAttr
      (fun x => { x with updated_at := now })
      (fun r1 r0 => r1.updated_at == r0.updated_at) t kwargs,
      by simp [trackUpdate, hu], ?_, ?_⟩
    · intro k v hmem hw hku
      simp only [repoUpdateRow]
      split_ifs with hd
      · rw [trackGetAttr_touch_ne _ _ _ hku]
        exact trackFoldl_mem kwargs t k v hmem hnodup hw
      · exact trackFoldl_mem kwargs t k v hmem hnodup hw
    · intro k hcol hku hnotin
      simp only [repoUpdateRow]
      split_ifs with hd
      · rw [trackGetAttr_touch_ne _ _ _ hku]
        exact trackFoldl_not_mem kwargs t k (fun kv hkv hkk =>
          hnotin kv hkv (hkk ▸ rfl))
      · exact trackFoldl_not_mem kwargs t k (fun kv hkv hkk =>
          hnotin kv hkv (hkk ▸ rfl))
  · intro t hfound hids hunk
    have hu := repoUpdate_found Track.id trackHasAttr trackSetAttr
      (fun x => { x with updated_at := now })
      (fun r1 r0 => r1.updated_at == r0.updated_at) db.tracks id kwargs t hfound
    have hrow : repoUpdateRow trackHasAttr trackSetAttr
        (fun x => { x with updated_at := now })
        (fun r1 r0 => r1.updated_at == r0.updated_at) t kwargs = t := by
      simp only [repoUpdateRow]
      rw [trackFoldl_skip kwargs t hunk]
      simp
    obtain ⟨ht, hid⟩ := repoGetById_some hfound
    have hmap : db.tracks.map (fun x => if x.id == id then t else x) = db.tracks := by
      rw [List.map_congr_left ?_, List.map_id']
      intro a ha
      by_cases hai : (a.id == id) = true
      · rw [if_pos hai]
        exact List.inj_on_of_nodup_map hids ht ha (by rw [hid, eq_of_beq hai])
      · rw [if_neg hai]
    rw [trackUpdate, hu, hrow]
    simp only
    rw [hmap]

/-- Witness for the amended C4: updating only `artist` on the one-track
store sets `artist` and preserves `title` and `album`. -/
theorem update_field_merge_witness :
    ∃ r, (trackUpdate dbC4 5 1 [("artist", Value.vStr "B")]).1 = some r ∧
      trackGetAttr r "artist" = Value.vStr "B" ∧
      trackGetAttr r "title" = trackGetAttr tC4 "title" ∧
      trackGetAttr r "album" = trackGetAttr tC4 "album" := by
  obtain ⟨r, hr, hA, hB⟩ := (update_field_merge dbC4 5 1 [("artist", Value.vStr "B")]).2.1
    tC4 (by rfl) (by decide)
  refine ⟨r, hr, ?_, ?_, ?_⟩
  · exact hA "artist" (Value.vStr "B") (by decide) (by decide) (by decide)
  · exact hB "title" (by decide) (by decide) (by intro kv hkv; fin_cases hkv; decide)
  · exact hB "album" (by decide) (by decide) (by intro kv hkv; fin_cases hkv; decide)

theorem trackSetAttr_created_ne (t : Track) (k : String) (v : Value)
    (h : ¬ k = "created_at") :
    (trackSetAttr t k v).created_at = t.created_at := by
  have h2 := trackGetAttr_setAttr_ne t k v "created_at" (fun he => h he.symm)
  have h3 : Value.vTime (trackSetAttr t k v).created_at = Value.vTime t.created_at := h2
  injection h3

set_option maxHeartbeats 800000 in
theorem digitalTrackSetAttr_created_ne (d : DigitalTrack) (k : String) (v : Value)
    (h : ¬ k = "created_at") :
    (digitalTrackSetAttr d k v).created_at = d.created_at := by
  unfold digitalTrackSetAttr
  split_ifs <;> cases v <;> simp_all

set_option maxHeartbeats 800000 in
theorem physicalTrackSetAttr_created_ne (p : PhysicalTrack) (k : String) (v : Value)
    (h : ¬ k = "created_at") :
    (physicalTrackSetAttr p k v).created_at = p.created_at := by
  unfold physicalTrackSetAttr
  split_ifs <;> cases v <;> simp_all

set_option maxHeartbeats 800000 in
theorem releaseSetAttr_created_ne (r : Release) (k : String) (v : Value)
    (h : ¬ k = "created_at") :
    (releaseSetAttr r k v).created_at = r.created_at := by
  unfold releaseSetAttr
  split_ifs <;> cases v <;> simp_all

set_option maxHeartbeats 800000 in
theorem importBatchSetAttr_created_ne (b : ImportBatch) (k : String) (v : Value)
    (h : ¬ k = "created_at") :
    (importBatchSetAttr b k v).created_at = b.created_at := by
  unfold importBatchSetAttr
  split_ifs <;> cases v <;> simp_all

theorem foldl_proj_preserves {ρ : Type} (f : ρ → String × Value → ρ) (proj : ρ → Nat)
    (kwargs : List (String × Value))
    (hstep : ∀ r kv, kv ∈ kwargs → proj (f r kv) = proj r) : ∀ r : ρ,
    proj (kwargs.foldl f r) = proj r := by
  induction kwargs with
  | nil => intro r; rfl
  | cons kv rest ih =>
    intro r
    rw [List.foldl_cons,
      ih (fun r2 kv2 h2 => hstep r2 kv2 (List.mem_cons_of_mem kv h2)) (f r kv),
      hstep r kv (List.mem_cons_self kv rest)]

/-- Lemma: `repoUpdateRow` preserves `created_at` whenever the per-entity
`setattr` does and the flush hook does. -/
theorem repoUpdateRow_proj {ρ : Type} [DecidableEq ρ] (hasAttr : String → Bool)
    (setAttr : ρ → String → Value → ρ) (touch : ρ → ρ) (updSame : ρ → ρ → Bool)
    (proj : ρ → Nat)
    (kwargs : List (String × Value)) (r : ρ)
    (hset : ∀ x kv, kv ∈ kwargs → proj (setAttr x kv.1 kv.2) = proj x)
    (htouch : ∀ x, proj (touch x) = proj x) :
    proj (repoUpdateRow hasAttr setAttr touch updSame r kwargs) = proj r := by
  simp only [repoUpdateRow]
  have hfold := foldl_proj_preserves
    (fun acc kv => if hasAttr kv.1 then setAttr acc kv.1 kv.2 else acc) proj kwargs
    (fun x kv hkv => by
      show proj (if hasAttr kv.1 then setAttr x kv.1 kv.2 else x) = proj x
      by_cases hh : hasAttr kv.1 = true
      · rw [if_pos hh]
        exact hset x kv hkv
      · rw [if_neg hh]) r
  split_ifs with hcond
  · rw [htouch]
    exact hfold
  · exact hfold

/-- C8 counterexample: `update(id, created_at=...)` — a repository
operation — changes `created_at`, because `created_at` is a settable
mapped attribute like any other. -/
theorem created_at_explicit_update_cex :
    ((trackUpdate dbC8 5 1 [("created_at", Value.vTime 99)]).1.map Track.created_at)
      = some 99 ∧
    tC8.created_at = 0 := by
  constructor
  · rfl
  · rfl

/-- C8 amended: `created_at` is set at creation and is not changed
by any subsequent `update` that does not explicitly supply
`created_at` as a field (for every entity type); `Track.updated_at` is
refreshed to the current clock exactly when the flush emits an
`UPDATE`, i.e. when the update gives some column a value that differs
from its flushed value while not supplying `updated_at` itself — so it
changes whenever the clock has advanced — whereas an update all of
whose supplied values equal the current ones emits no `UPDATE` and
leaves the row, `updated_at` included, unchanged. -/
theorem timestamps_policy (db : DB) (now now2 : Nat) (id : Int)
    (kwargs : List (String × Value)) (artist title : String) (album label : Option String)
    (year dur : Option Int) :
    ((trackCreate db artist title album label year dur now).1.created_at = now ∧
     (trackCreate db artist title album label year dur now).1.updated_at = now) ∧
    ((∀ kv ∈ kwargs, ¬ kv.1 = "created_at") →
      (∀ t r, trackGetById db id = some t →
        (trackUpdate db now2 id kwargs).1 = some r → r.created_at = t.created_at) ∧
      (∀ d r, digitalTrackGetById db id = some d →
        (digitalTrackUpdate db id kwargs).1 = some r → r.created_at = d.created_at) ∧
      (∀ p r, physicalTrackGetById db id = some p →
        (physicalTrackUpdate db id kwargs).1 = some r → r.created_at = p.created_at) ∧
      (∀ x r, releaseGetById db id = some x →
        (releaseUpdate db id kwargs).1 = some r → r.created_at = x.created_at) ∧
      (∀ b r, importBatchGetById db id = some b →
        (importBatchUpdate db id kwargs).1 = some r → r.created_at = b.created_at)) ∧
    ((kwargs.map Prod.fst).Nodup →
      (∀ kv ∈ kwargs, ¬ kv.1 = "updated_at") →
      ∀ t, trackGetById db id = some t →
      (∃ k v, (k, v) ∈ kwargs ∧ trackWellTyped k v = true ∧ ¬ trackGetAttr t k = v) →
      ∀ r, (trackUpdate db now2 id kwargs).1 = some r →
        r.updated_at = now2 ∧ (¬ now2 = t.updated_at → ¬ r.updated_at = t.updated_at)) ∧
    ((db.tracks.map Track.id).Nodup →
      (kwargs.map Prod.fst).Nodup →
      ∀ t, trackGetById db id = some t →
      (∀ kv ∈ kwargs, (trackColumns.contains kv.1 = true ∧ trackWellTyped kv.1 kv.2 = true ∧
          trackGetAttr t kv.1 = kv.2) ∨ trackHasAttr kv.1 = false) →
      trackUpdate db now2 id kwargs = (some t, db)) := by
  refine ⟨⟨rfl, rfl⟩, ?_, ?_, ?_⟩
  · intro hnc
    refine ⟨?_, ?_, ?_, ?_, ?_⟩
    · intro t r hf hr
      rw [trackUpdate] at hr
      simp only [repoUpdate_found _ _ _ _ _ _ _ _ _ hf] at hr
      injection hr with hr
      subst hr
      exact repoUpdateRow_proj _ _ _ _ Track.created_at kwargs t
        (fun x kv hkv => trackSetAttr_created_ne x kv.1 kv.2 (hnc kv hkv))
        (fun x => rfl)
    · intro d r hf hr
      rw [digitalTrackUpdate] at hr
      simp only [repoUpdate_found _ _ _ _ _ _ _ _ _ hf] at hr
      injection hr with hr
      subst hr
      exact repoUpdateRow_proj _ _ _ _ DigitalTrack.created_at kwargs d
        (fun x kv hkv => digitalTrackSetAttr_created_ne x kv.1 kv.2 (hnc kv hkv))
        (fun x => rfl)
    · intro p r hf hr
      rw [physicalTrackUpdate] at hr
      simp only [repoUpdate_found _ _ _ _ _ _ _ _ _ hf] at hr
      injection hr with hr
      subst hr
      exact repoUpdateRow_proj _ _ _ _ PhysicalTrack.created_at kwargs p
        (fun x kv hkv => physicalTrackSetAttr_created_ne x kv.1 kv.2 (hnc kv hkv))
        (fun x => rfl)
    · intro x r hf hr
      rw [releaseUpdate] at hr
      simp only [repoUpdate_found _ _ _ _ _ _ _ _ _ hf] at hr
      injection hr with hr
      subst hr
      exact repoUpdateRow_proj _ _ _ _ Release.created_at kwargs x
        (fun y kv hkv => releaseSetAttr_created_ne y kv.1 kv.2 (hnc kv hkv))
        (fun y => rfl)
    · intro b r hf hr
      rw [importBatchUpdate] at hr
      simp only [repoUpdate_found _ _ _ _ _ _ _ _ _ hf] at hr
      injection hr with hr
      subst hr
      exact repoUpdateRow_proj _ _ _ _ ImportBatch.created_at kwargs b
        (fun y kv hkv => importBatchSetAttr_created_ne y kv.1 kv.2 (hnc kv hkv))
        (fun y => rfl)
  · intro hnodup hnup t hf hdiff r hr
    rw [trackUpdate] at hr
    simp only [repoUpdate_found _ _ _ _ _ _ _ _ _ hf] at hr
    injection hr with hr
    subst hr
    have hne : ¬ (kwargs.foldl
        (fun acc kv => if trackHasAttr kv.1 then trackSetAttr acc kv.1 kv.2 else acc) t) = t := by
      obtain ⟨k, v, hmem, hw, hneq⟩ := hdiff
      intro heq
      apply hneq
      rw [← trackFoldl_mem kwargs t k v hmem hnodup hw, heq]
    have hupre : (kwargs.foldl
        (fun acc kv => if trackHasAttr kv.1 then trackSetAttr acc kv.1 kv.2 else acc)
        t).updated_at = t.updated_at := by
      have h2 := trackFoldl_not_mem kwargs t "updated_at"
        (fun kv hkv he => hnup kv hkv he.symm)
      have h3 : Value.vTime (kwargs.foldl
          (fun acc kv => if trackHasAttr kv.1 then trackSetAttr acc kv.1 kv.2 else acc)
          t).updated_at = Value.vTime t.updated_at := h2
      injection h3
    have hupd : (repoUpdateRow trackHasAttr trackSetAttr
        (fun x => { x with updated_at := now2 })
        (fun r1 r0 => r1.updated_at == r0.updated_at) t kwargs).updated_at = now2 := by
      simp only [repoUpdateRow]
      rw [if_pos (by simp [bne_iff_ne, hne, hupre])]
    refine ⟨hupd, ?_⟩
    intro hne2 hcon
    apply hne2
    rw [← hupd]
    exact hcon
  · intro hids hnodup t hf hsame
    have hu := repoUpdate_found Track.id trackHasAttr trackSetAttr
      (fun x => { x with updated_at := now2 })
      (fun r1 r0 => r1.updated_at == r0.updated_at) db.tracks id kwargs t hf
    have hr1 : (kwargs.foldl
        (fun acc kv => if trackHasAttr kv.1 then trackSetAttr acc kv.1 kv.2 else acc) t) = t := by
      apply track_ext_getAttr
      intro k
      by_cases hex : ∃ v, (k, v) ∈ kwargs
      · obtain ⟨v, hv⟩ := hex
        rcases hsame (k, v) hv with ⟨hcol, hw, hval⟩ | hfa
        · rw [trackFoldl_mem kwargs t k v hv hnodup hw, hval]
        · apply trackFoldl_pres
          intro kv hkv
          by_cases hk : k = kv.1
          · right
            rw [← hk]
            exact hfa
          · left
            exact hk
      · apply trackFoldl_not_mem
        intro kv hkv hk
        exact hex ⟨kv.2, by rw [hk]; exact hkv⟩
    have hrow : repoUpdateRow trackHasAttr trackSetAttr
        (fun x => { x with updated_at := now2 })
        (fun r1 r0 => r1.updated_at == r0.updated_at) t kwargs = t := by
      simp only [repoUpdateRow]
      rw [hr1]
      simp
    obtain ⟨ht, hid⟩ := repoGetById_some hf
    have hmap : db.tracks.map (fun x => if x.id == id then t else x) = db.tracks := by
      rw [List.map_congr_left ?_, List.map_id']
      intro a ha
      by_cases hai : (a.id == id) = true
      · rw [if_pos hai]
        exact List.inj_on_of_nodup_map hids ht ha (by rw [hid, eq_of_beq hai])
      · rw [if_neg hai]
    rw [trackUpdate, hu, hrow]
    simp only
    rw [hmap]

/-- Witness for the amended C8: creating at clock 3 stamps `created_at = 3`;
changing `artist` from "A" to "B" at clock 7 keeps `created_at` and
refreshes `updated_at` to 7, while re-assigning `artist` its current
value "A" emits no `UPDATE` and changes nothing. -/
theorem timestamps_policy_witness :
    (trackCreate dbC8 "A" "T" none none none none 3).1.created_at = 3 ∧
    (⟨1, "B", "T", none, none, none, none, 0, 7⟩ : Track).created_at = tC8.created_at ∧
    (⟨1, "B", "T", none, none, none, none, 0, 7⟩ : Track).updated_at = 7 ∧
    trackUpdate dbC8 7 1 [("artist", Value.vStr "A")] = (some tC8, dbC8) := by
  have h := timestamps_policy dbC8 3 7 1 [("artist", Value.vStr "B")] "A" "T" none none none none
  have hsv := timestamps_policy dbC8 3 7 1 [("artist", Value.vStr "A")] "A" "T" none none none none
  refine ⟨h.1.1, ?_, ?_, ?_⟩
  · exact (h.2.1 (by decide)).1 tC8 ⟨1, "B", "T", none, none, none, none, 0, 7⟩ rfl rfl
  · exact (h.2.2.1 (by decide) (by decide) tC8 rfl
      ⟨"artist", Value.vStr "B", by decide, by decide, by decide⟩
      ⟨1, "B", "T", none, none, none, none, 0, 7⟩ rfl).1
  · exact hsv.2.2.2 (by decide) (by decide) tC8 rfl (by decide)
